import Mathlib

/-!
Shallow embedding of the command-surface discovery and allowlist resolution
subsystem (`apps/backend/project/structure_analyzer.py`) and of the cross-repo
impact queries (`apps/backend/context/models.py`).

Python values parsed from JSON/TOML files are modelled by the inductive `Json`
(numbers as integers; floating-point literals do not occur in any claim).
Python exceptions that can escape the analysed functions (AttributeError,
TypeError, KeyError, IndexError) are modelled by `Except Unit`; a raised
exception is `.error ()`, a normal return is `.ok`.  Python `set` objects are
modelled as `Finset String`.
-/

/-- Parsed JSON/TOML value.  An object is an association list in insertion
order, matching the key order of a Python `dict` built by `json.load` /
`tomllib.load`. -/
inductive Json where
  | null
  | bool (b : Bool)
  | num (n : Int)
  | str (s : String)
  | arr (elems : List Json)
  | obj (entries : List (String × Json))

/-- Structural equality of JSON values, mirroring Python `==` on the trees
produced by `json.load` / `tomllib.load`. -/
def Json.beq : Json → Json → Bool
  | .null, .null => true
  | .bool a, .bool b => a == b
  | .num a, .num b => a == b
  | .str a, .str b => a == b
  | .arr [], .arr [] => true
  | .arr (x :: xs), .arr (y :: ys) => Json.beq x y && Json.beq (.arr xs) (.arr ys)
  | .obj [], .obj [] => true
  | .obj ((k, v) :: xs), .obj ((l, w) :: ys) =>
      k == l && Json.beq v w && Json.beq (.obj xs) (.obj ys)
  | _, _ => false
termination_by a b => sizeOf a + sizeOf b
decreasing_by all_goals simp_arith

/-- Python `==` between a JSON value and a string: true exactly for the same
string (no other JSON value compares equal to a `str`). -/
def jsonEqStr (j : Json) (x : String) : Bool :=
  match j with
  | .str s => s == x
  | _ => false

/-- Python truthiness (`if pkg:`, `if make_targets:`) for a JSON value:
`None`, `False`, `0`, `""`, `[]`, `{}` are falsy, everything else truthy. -/
def pyTruthy : Json → Bool
  | .null => false
  | .bool b => b
  | .num n => n != 0
  | .str s => s ≠ ""
  | .arr xs => !xs.isEmpty
  | .obj kvs => !kvs.isEmpty

/-- First-occurrence lookup in an association list (Python `d[k]` / `k in d`
for a dict; parsed JSON objects never repeat keys, so first = only). -/
def pyLookup (kvs : List (String × Json)) (k : String) : Option Json :=
  match kvs with
  | [] => none
  | p :: rest => if p.1 = k then some p.2 else pyLookup rest k

/-- Whether string `needle` occurs as a substring of `hay` (Python `x in s`). -/
def pySubstr (needle hay : String) : Bool :=
  hay.toList.tails.any (fun t => needle.toList.isPrefixOf t)

/-- Python membership test `x in j` for a string `x`: key membership for a
dict, element equality for a list, substring test for a string, and a
`TypeError` (modelled as `.error ()`) for non-container values. -/
def pyIn (x : String) : Json → Except Unit Bool
  | .obj kvs => .ok (kvs.any (fun p => p.1 = x))
  | .arr xs => .ok (xs.any (fun j => jsonEqStr j x))
  | .str s => .ok (pySubstr x s)
  | _ => .error ()

/-- Python subscript `j[k]` with a string key: defined for dicts (KeyError
when absent); a `TypeError` for every other value. -/
def pySubscript (j : Json) (k : String) : Except Unit Json :=
  match j with
  | .obj kvs =>
    match pyLookup kvs k with
    | some v => .ok v
    | none => .error ()
  | _ => .error ()

/-- Python `j.get(k, default)`: only dicts have `.get` (AttributeError
otherwise, modelled as `.error ()`). -/
def pyGet (j : Json) (k : String) (dflt : Json) : Except Unit Json :=
  match j with
  | .obj kvs => .ok ((pyLookup kvs k).getD dflt)
  | _ => .error ()

/-- Python `list(j.keys())`: only dicts have `.keys()`. -/
def pyKeys : Json → Except Unit (List String)
  | .obj kvs => .ok (kvs.map (fun p => p.1))
  | _ => .error ()

/-- Python iteration `for x in j`: lists yield elements, strings yield
one-character strings, dicts yield their keys; other values raise
`TypeError`. -/
def pyIterate : Json → Except Unit (List Json)
  | .arr xs => .ok xs
  | .str s => .ok (s.toList.map (fun c => Json.str (String.mk [c])))
  | .obj kvs => .ok (kvs.map (fun p => Json.str p.1))
  | _ => .error ()

/-- Characters matched by Python `\s` and stripped by `str.strip()` /
split on by `str.split()` (ASCII whitespace; the Unicode extras never occur
in the analysed inputs). -/
def pyIsSpace (c : Char) : Bool :=
  c = ' ' || c = '\t' || c = '\n' || c = '\r' || c = '\x0b' || c = '\x0c'

/-- Python `str.strip()`. -/
def pyStrip (s : String) : String :=
  String.mk (((s.toList.dropWhile pyIsSpace).reverse.dropWhile pyIsSpace).reverse)

/-- Splitting a character list at every character satisfying `p`; adjacent
separators produce empty pieces and the result is never empty, matching the
piece structure of Python string splitting. -/
def splitOnPred (p : Char → Bool) : List Char → List (List Char)
  | [] => [[]]
  | c :: rest =>
    if p c then [] :: splitOnPred p rest
    else
      match splitOnPred p rest with
      | [] => [[c]]
      | piece :: pieces => (c :: piece) :: pieces

/-- Python `str.split()` with no argument: whitespace-delimited tokens,
empty tokens dropped (so a blank string yields the empty list). -/
def pySplitWs (s : String) : List String :=
  ((splitOnPred pyIsSpace s.toList).map String.mk).filter (fun t => t ≠ "")

/-- Python `str.splitlines()` restricted to `\n` separators (the only line
terminator occurring in the analysed inputs): split on `\n` and drop a final
empty fragment, so `"a\nb\n"` gives `["a", "b"]` and `""` gives `[]`. -/
def pySplitlines (s : String) : List String :=
  let parts := (splitOnPred (fun c => c = '\n') s.toList).map String.mk
  match parts.getLast? with
  | some "" => parts.dropLast
  | _ => parts

/-- Python `str.startswith(pre)`. -/
def pyStartsWith (s pre : String) : Bool :=
  pre.toList.isPrefixOf s.toList

/-- Modelled from the spec: the `CustomScripts` container imported from
`project/models.py` (that file is not part of the shown sources).  The spec
describes it as the ScriptCatalog: one ordered sequence per manifest kind,
each defaulting to empty.  Field names follow the attribute names used by
`structure_analyzer.py`.  `make_targets` and `mise_tasks` hold `Json` values
because the security-defaults merge appends raw JSON elements to them; the
detectors themselves only ever append strings (`Json.str`). -/
structure CustomScripts where
  npm_scripts : List String := []
  make_targets : List Json := []
  poetry_scripts : List String := []
  shell_scripts : List String := []
  mise_tasks : List Json := []

/-- Mutable state of a `StructureAnalyzer` run: the catalog plus the two
result sets (`script_commands`, `custom_commands`), as initialised by
`__init__`. -/
structure AnalyzerState where
  custom_scripts : CustomScripts := {}
  script_commands : Finset String := ∅
  custom_commands : Finset String := ∅

/-- Outcome of reading `.auto-claude/security_defaults.json`:
the path does not exist; `open`/read raised `OSError`; `json.load` raised
`JSONDecodeError`; or the file parsed to a JSON value. -/
inductive DefaultsFile where
  | absent
  | unreadable
  | malformed
  | parsed (data : Json)

/-- The file-system inputs a resolution run consumes, as returned by the
external `ConfigParser` collaborator (modelled from the spec: the reader
returns parsed content, or an absent/empty result instead of failing).
`none` stands for a missing or unparsable file; `shellScripts` is the
concatenated glob result for `*.sh` then `*.bash` in the project root. -/
structure ProjectDir where
  packageJson : Option Json := none
  makefile : Option String := none
  pyprojectToml : Option Json := none
  shellScripts : List String := []
  allowlist : Option String := none
  securityDefaults : DefaultsFile := .absent

/-- The conditional launcher addition of the defaults merge:
`if make_targets: script_commands.add("make")` (and likewise for `mise`). -/
def condInsert (b : Bool) (nm : String) (s : AnalyzerState) : AnalyzerState :=
  if b then { s with script_commands := insert nm s.script_commands } else s

/-- The four launcher additions made per npm script:
`script_commands |= {npm, yarn, pnpm, bun}`. -/
def npmLaunchInsert (s : Finset String) : Finset String :=
  insert "bun" (insert "pnpm" (insert "yarn" (insert "npm" s)))

/-- The `for script in npm_scripts` loop of `_detect_npm_scripts`: one
`npmLaunchInsert` per discovered script name. -/
def npmLoop (keys : List String) (s : Finset String) : Finset String :=
  keys.foldl (fun acc _ => npmLaunchInsert acc) s

/-- Embedding of `StructureAnalyzer._detect_npm_scripts`: read
`package.json`; if the parse result is truthy and contains a `scripts` key,
record the script keys and add the four launchers once per script. -/
def detect_npm_scripts (pkg? : Option Json) (st : AnalyzerState) :
    Except Unit AnalyzerState :=
  match pkg? with
  | none => .ok st
  | some pkg =>
    if pyTruthy pkg then
      match pyIn "scripts" pkg with
      | .error e => .error e
      | .ok false => .ok st
      | .ok true =>
        match pySubscript pkg "scripts" with
        | .error e => .error e
        | .ok sv =>
          match pyKeys sv with
          | .error e => .error e
          | .ok keys =>
            let st1 := { st with custom_scripts.npm_scripts := keys }
            .ok { st1 with script_commands := npmLoop keys st1.script_commands }
    else .ok st

/-- Regex `^([a-zA-Z_][a-zA-Z0-9_-]*)\s*:` start-of-identifier class. -/
def isIdentStart (c : Char) : Bool :=
  (c ≥ 'a' && c ≤ 'z') || (c ≥ 'A' && c ≤ 'Z') || c = '_'

/-- Regex `^([a-zA-Z_][a-zA-Z0-9_-]*)\s*:` identifier-continuation class. -/
def isIdentChar (c : Char) : Bool :=
  isIdentStart c || (c ≥ '0' && c ≤ '9') || c = '-'

/-- Result of `re.match(r"^([a-zA-Z_][a-zA-Z0-9_-]*)\s*:", line)`: the
captured group when the line starts with an identifier whose maximal run is
followed (after optional whitespace) by a colon. -/
def matchTarget (line : String) : Option String :=
  match line.toList with
  | [] => none
  | c :: _ =>
    if isIdentStart c then
      let ident := line.toList.takeWhile isIdentChar
      let rest := (line.toList.dropWhile isIdentChar).dropWhile pyIsSpace
      match rest with
      | ':' :: _ => some (String.mk ident)
      | _ => none
    else none

/-- One line of the `_detect_makefile_targets` loop: append the captured
target unless it starts with a dot. -/
def makefileLine (st : AnalyzerState) (line : String) : AnalyzerState :=
  match matchTarget line with
  | some target =>
    if !pyStartsWith target "." then
      { st with custom_scripts.make_targets :=
          st.custom_scripts.make_targets ++ [Json.str target] }
    else st
  | none => st

/-- Embedding of `StructureAnalyzer._detect_makefile_targets`: scan the
Makefile text line by line for leading `identifier:` patterns, then add
`make` to `script_commands` when the accumulated target list is non-empty. -/
def detect_makefile_targets (mf? : Option String) (st : AnalyzerState) :
    AnalyzerState :=
  match mf? with
  | none => st
  | some content =>
    if content = "" then st
    else
      let st1 := (pySplitlines content).foldl makefileLine st
      condInsert (!st1.custom_scripts.make_targets.isEmpty) "make" st1

/-- The `tool.poetry` half of `_detect_poetry_scripts`:
`if "tool" in toml and "poetry" in toml["tool"]:` assign
`poetry_scripts = list(toml["tool"]["poetry"].get("scripts", {}).keys())`. -/
def poetrySection (toml : Json) (st : AnalyzerState) :
    Except Unit AnalyzerState :=
  match pyIn "tool" toml with
  | .error e => .error e
  | .ok false => .ok st
  | .ok true =>
    match pySubscript toml "tool" with
    | .error e => .error e
    | .ok tv =>
      match pyIn "poetry" tv with
      | .error e => .error e
      | .ok false => .ok st
      | .ok true =>
        match pySubscript tv "poetry" with
        | .error e => .error e
        | .ok pv =>
          match pyGet pv "scripts" (.obj []) with
          | .error e => .error e
          | .ok sv =>
            match pyKeys sv with
            | .error e => .error e
            | .ok keys => .ok { st with custom_scripts.poetry_scripts := keys }

/-- The PEP 621 half of `_detect_poetry_scripts`:
`if "project" in toml and "scripts" in toml["project"]:` extend
`poetry_scripts` with `list(toml["project"]["scripts"].keys())`. -/
def pep621Section (toml : Json) (st : AnalyzerState) :
    Except Unit AnalyzerState :=
  match pyIn "project" toml with
  | .error e => .error e
  | .ok false => .ok st
  | .ok true =>
    match pySubscript toml "project" with
    | .error e => .error e
    | .ok prv =>
      match pyIn "scripts" prv with
      | .error e => .error e
      | .ok false => .ok st
      | .ok true =>
        match pySubscript prv "scripts" with
        | .error e => .error e
        | .ok sv =>
          match pyKeys sv with
          | .error e => .error e
          | .ok keys =>
            .ok { st with custom_scripts.poetry_scripts :=
                    st.custom_scripts.poetry_scripts ++ keys }

/-- Embedding of `StructureAnalyzer._detect_poetry_scripts`: skip a missing
or falsy `pyproject.toml`, else run the poetry section and then the PEP 621
section. -/
def detect_poetry_scripts (toml? : Option Json) (st : AnalyzerState) :
    Except Unit AnalyzerState :=
  match toml? with
  | none => .ok st
  | some toml =>
    if pyTruthy toml then
      match poetrySection toml st with
      | .error e => .error e
      | .ok st1 => pep621Section toml st1
    else .ok st

/-- Embedding of `StructureAnalyzer._detect_shell_scripts`: for every
globbed `*.sh` / `*.bash` filename, record it and allow `./<name>`. -/
def detect_shell_scripts (scripts : List String) (st : AnalyzerState) :
    AnalyzerState :=
  scripts.foldl
    (fun s name =>
      { s with
        custom_scripts.shell_scripts := s.custom_scripts.shell_scripts ++ [name],
        script_commands := insert ("./" ++ name) s.script_commands })
    st

/-- One line of `load_custom_allowlist`: strip it, then add it to
`custom_commands` unless it is blank or a `#` comment. -/
def allowlistLine (st : AnalyzerState) (line : String) : AnalyzerState :=
  if pyStrip line ≠ "" && !pyStartsWith (pyStrip line) "#" then
    { st with custom_commands := insert (pyStrip line) st.custom_commands }
  else st

/-- Embedding of `StructureAnalyzer.load_custom_allowlist`: read the
`.auto-claude-allowlist` text and add every non-blank, non-comment stripped
line to `custom_commands`. -/
def load_custom_allowlist (content? : Option String) (st : AnalyzerState) :
    AnalyzerState :=
  match content? with
  | none => st
  | some content =>
    if content = "" then st
    else (pySplitlines content).foldl allowlistLine st

/-- The dedup-append of the defaults merge:
`if target not in self.custom_scripts.make_targets: append(target)`. -/
def addMakeTarget (st : AnalyzerState) (t : Json) : AnalyzerState :=
  if st.custom_scripts.make_targets.any (fun u => Json.beq u t) then st
  else { st with custom_scripts.make_targets :=
          st.custom_scripts.make_targets ++ [t] }

/-- The dedup-append of the defaults merge for mise tasks. -/
def addMiseTask (st : AnalyzerState) (t : Json) : AnalyzerState :=
  if st.custom_scripts.mise_tasks.any (fun u => Json.beq u t) then st
  else { st with custom_scripts.mise_tasks :=
          st.custom_scripts.mise_tasks ++ [t] }

/-- One validation command of the defaults merge:
`if isinstance(cmd, str): base_cmd = cmd.split()[0] if cmd else ""` then
`if base_cmd: custom_commands.add(base_cmd)`.  Indexing `[0]` into the token
list of a non-empty string raises `IndexError` when the string is
whitespace-only, because `str.split()` then returns the empty list. -/
def addValidationCmd (st : AnalyzerState) (cmd : Json) : Except Unit AnalyzerState :=
  match cmd with
  | .str c =>
    if c ≠ "" then
      match pySplitWs c with
      | [] => .error ()
      | b :: _ =>
        .ok (if b ≠ "" then
              { st with custom_commands := insert b st.custom_commands }
             else st)
    else .ok st
  | _ => .ok st

/-- The `for cmd in commands.values()` loop over one category, propagating a
raised exception. -/
def valCmdFold (l : List (String × Json)) (st : AnalyzerState) :
    Except Unit AnalyzerState :=
  match l with
  | [] => .ok st
  | p :: rest =>
    match addValidationCmd st p.2 with
    | .error e => .error e
    | .ok st1 => valCmdFold rest st1

/-- One `validation_commands` category: `if isinstance(commands, dict):`
iterate over `commands.values()` in insertion order. -/
def addValidationCat (st : AnalyzerState) (commands : Json) :
    Except Unit AnalyzerState :=
  match commands with
  | .obj ckvs => valCmdFold ckvs st
  | _ => .ok st

/-- The `for _category, commands in validation_commands.items()` loop. -/
def valCatFold (l : List (String × Json)) (st : AnalyzerState) :
    Except Unit AnalyzerState :=
  match l with
  | [] => .ok st
  | p :: rest =>
    match addValidationCat st p.2 with
    | .error e => .error e
    | .ok st1 => valCatFold rest st1

/-- Embedding of `StructureAnalyzer._load_security_defaults`: a missing file,
an `OSError` and a `JSONDecodeError` all return with the state untouched;
a parsed file is merged: `custom_scripts.make_targets` and
`custom_scripts.mise_tasks` are dedup-appended (adding `make` / `mise` to
`script_commands` when the respective JSON value is truthy), then every
string value of every dict category under `validation_commands` contributes
its first whitespace token to `custom_commands`. -/
def load_security_defaults (df : DefaultsFile) (st : AnalyzerState) :
    Except Unit AnalyzerState :=
  match df with
  | .absent => .ok st
  | .unreadable => .ok st
  | .malformed => .ok st
  | .parsed data =>
    match pyGet data "custom_scripts" (.obj []) with
    | .error e => .error e
    | .ok cs =>
      match pyGet cs "make_targets" (.arr []) with
      | .error e => .error e
      | .ok mt =>
        match pyIterate mt with
        | .error e => .error e
        | .ok mtElems =>
          let st2 := condInsert (pyTruthy mt) "make" (mtElems.foldl addMakeTarget st)
          match pyGet cs "mise_tasks" (.arr []) with
          | .error e => .error e
          | .ok ms =>
            match pyIterate ms with
            | .error e => .error e
            | .ok msElems =>
              let st4 := condInsert (pyTruthy ms) "mise" (msElems.foldl addMiseTask st2)
              match pyGet data "validation_commands" (.obj []) with
              | .error e => .error e
              | .ok vc =>
                match vc with
                | .obj vkvs => valCatFold vkvs st4
                | _ => .error ()

/-- The manifest-detection part of `analyze`:
`detect_custom_scripts` runs the four detectors in order. -/
def detect_custom_scripts (d : ProjectDir) (st : AnalyzerState) :
    Except Unit AnalyzerState :=
  match detect_npm_scripts d.packageJson st with
  | .error e => .error e
  | .ok st1 =>
    match detect_poetry_scripts d.pyprojectToml
        (detect_makefile_targets d.makefile st1) with
    | .error e => .error e
    | .ok st3 => .ok (detect_shell_scripts d.shellScripts st3)

/-- The first five resolution steps (everything before the security-defaults
merge): the four detectors followed by the user allowlist. -/
def analyze_pre_defaults (d : ProjectDir) : Except Unit AnalyzerState :=
  match detect_custom_scripts d {} with
  | .error e => .error e
  | .ok st => .ok (load_custom_allowlist d.allowlist st)

/-- Embedding of `StructureAnalyzer.analyze` on a freshly initialised
analyzer: detectors, then the user allowlist, then the workspace security
defaults; the returned state carries the catalog and the two command sets. -/
def analyze (d : ProjectDir) : Except Unit AnalyzerState :=
  match analyze_pre_defaults d with
  | .error e => .error e
  | .ok st => load_security_defaults d.securityDefaults st

/-- The catalog `make_targets` of a resolution result (empty on a raised
exception; used only to state concrete evaluations). -/
def getMakeTargets (r : Except Unit AnalyzerState) : List Json :=
  match r with
  | .ok st => st.custom_scripts.make_targets
  | .error _ => []

/-- The `script_commands` set of a resolution result. -/
def getScriptCommands (r : Except Unit AnalyzerState) : Finset String :=
  match r with
  | .ok st => st.script_commands
  | .error _ => ∅

/-- The catalog `poetry_scripts` of a resolution result. -/
def getPoetryScripts (r : Except Unit AnalyzerState) : List String :=
  match r with
  | .ok st => st.custom_scripts.poetry_scripts
  | .error _ => []

/-- Python dict update `d[k] = v` on an insertion-ordered association list:
overwrite in place when the key exists, else append. -/
def dictSet (kvs : List (String × Json)) (k : String) (v : Json) :
    List (String × Json) :=
  if kvs.any (fun p => p.1 = k) then
    kvs.map (fun p => if p.1 = k then (k, v) else p)
  else kvs ++ [(k, v)]

/-- The dict literal `{"pattern": pattern_name, **pattern_info}` built by
`get_cross_repo_impact` for a matching pattern: start from the injected
`pattern` key, then merge the record entries in order (later assignments
overwrite, including the `pattern` key itself). -/
def mkImpact (pattern_name : String) (info : List (String × Json)) :
    List (String × Json) :=
  info.foldl (fun acc p => dictSet acc p.1 p.2) [("pattern", Json.str pattern_name)]

/-- The scan of `MultiRepoContext.get_cross_repo_impact` over the pattern
entries in order: for each `(pattern_name, pattern_info)`, test
`repo_name in pattern_info.get("repos", [])` and append the merged dict on a
match.  `pattern_info.get` requires a dict (AttributeError otherwise). -/
def impactScan (patterns : List (String × Json)) (repo_name : String) :
    Except Unit (List (List (String × Json))) :=
  match patterns with
  | [] => .ok []
  | (pn, info) :: rest =>
    match info with
    | .obj kvs =>
      match pyIn repo_name ((pyLookup kvs "repos").getD (.arr [])) with
      | .error e => .error e
      | .ok b =>
        match impactScan rest repo_name with
        | .error e => .error e
        | .ok res => .ok (if b then mkImpact pn kvs :: res else res)
    | _ => .error ()

/-- Embedding of the `MultiRepoContext` dataclass of `context/models.py`
(mappings as insertion-ordered association lists). -/
structure MultiRepoContext where
  workspace_root : String := ""
  repos : List (String × Json) := []
  dependencies : List (String × List String) := []
  cross_repo_patterns : List (String × Json) := []
  worktree_strategy : List (String × String) := []

/-- Embedding of `MultiRepoContext.get_dependent_repos`: every repo whose
dependency list contains the given name, in mapping order. -/
def MultiRepoContext.get_dependent_repos (ctx : MultiRepoContext)
    (repo_name : String) : List String :=
  (ctx.dependencies.filter (fun p => repo_name ∈ p.2)).map (fun p => p.1)

/-- Embedding of `MultiRepoContext.get_cross_repo_impact`: scan
`cross_repo_patterns` for patterns whose `repos` list contains the repo. -/
def MultiRepoContext.get_cross_repo_impact (ctx : MultiRepoContext)
    (repo_name : String) : Except Unit (List (List (String × Json))) :=
  impactScan ctx.cross_repo_patterns repo_name

/-- The invariant of spec section 3: a non-empty build-target catalog implies
the `make` launcher is allowed. -/
def MakeInv (st : AnalyzerState) : Prop :=
  st.custom_scripts.make_targets ≠ [] → "make" ∈ st.script_commands

/-- The four npm-family launcher names. -/
def npmFour : Finset String := {"npm", "yarn", "pnpm", "bun"}

/-- What the validation-command processing preserves: `script_commands` and
the whole catalog stay untouched and `custom_commands` only grows. -/
def ValPres (st st' : AnalyzerState) : Prop :=
  st'.script_commands = st.script_commands ∧
  st.custom_commands ⊆ st'.custom_commands ∧
  st'.custom_scripts = st.custom_scripts

/-- What the whole security-defaults merge guarantees between its input and
output states: both command sets only grow, the only launcher additions are
`make` and `mise`, and the npm/poetry/shell catalog entries are untouched. -/
def DefPres (st st' : AnalyzerState) : Prop :=
  st.script_commands ⊆ st'.script_commands ∧
  (∀ x ∈ st'.script_commands, x ∈ st.script_commands ∨ x = "make" ∨ x = "mise") ∧
  st.custom_commands ⊆ st'.custom_commands ∧
  st'.custom_scripts.npm_scripts = st.custom_scripts.npm_scripts ∧
  st'.custom_scripts.poetry_scripts = st.custom_scripts.poetry_scripts ∧
  st'.custom_scripts.shell_scripts = st.custom_scripts.shell_scripts

/-- Whether an association-list dict contains a key. -/
def hasKeyB (l : List (String × Json)) (k : String) : Bool :=
  l.any (fun p => p.1 = k)

/-- A project whose security defaults contain a whitespace-only validation
command string. -/
def dirC1 : ProjectDir :=
  { securityDefaults := .parsed (.obj
      [("validation_commands", .obj [("go", .obj [("build", .str " ")])])]) }

/-- A project whose security defaults contain an empty validation command
string. -/
def dirC1empty : ProjectDir :=
  { securityDefaults := .parsed (.obj
      [("validation_commands", .obj [("go", .obj [("build", .str "")])])]) }

/-- A project containing only a pyproject.toml with one poetry script. -/
def dirC2cex : ProjectDir :=
  { pyprojectToml := some (.obj [("tool", .obj [("poetry", .obj
      [("scripts", .obj [("serve", .str "app:main")])])])]) }

/-- A project with one npm script and a one-target Makefile. -/
def dirC2wit : ProjectDir :=
  { packageJson := some (.obj [("scripts", .obj [("dev", .str "vite")])]),
    makefile := some "build:" }

/-- The resolution result for `dirC2wit`. -/
def stC2wit : AnalyzerState :=
  { custom_scripts := { npm_scripts := ["dev"], make_targets := [Json.str "build"] },
    script_commands :=
      insert "make" (insert "bun" (insert "pnpm" (insert "yarn" (insert "npm" ∅)))) }

/-- The Makefile of spec section 8: `build:`, `.PHONY: build`, an indented
`  test: build`, and `lint:` with a tab-indented recipe line. -/
def dirC3 : ProjectDir :=
  { makefile := some "build:\n.PHONY: build\n  test: build\nlint:\n\tdo-thing" }

/-- A project with a user allowlist and a security-defaults file adding one
validation command. -/
def dirC5wit : ProjectDir :=
  { allowlist := some "docker",
    securityDefaults := .parsed (.obj
      [("validation_commands", .obj [("go", .obj [("build", .str "go build")])])]) }

/-- The resolution result for `dirC5wit`. -/
def stC5wit : AnalyzerState := { custom_commands := insert "go" (insert "docker" ∅) }

/-- The resolution result for `dirC5wit` with the defaults file absent. -/
def stC5abs : AnalyzerState := { custom_commands := insert "docker" ∅ }

/-- A project with a single-script package.json. -/
def dirC6wit : ProjectDir :=
  { packageJson := some (.obj [("scripts", .obj [("build", .str "tsc")])]) }

/-- The resolution result for `dirC6wit`. -/
def stC6wit : AnalyzerState :=
  { custom_scripts := { npm_scripts := ["build"] },
    script_commands := insert "bun" (insert "pnpm" (insert "yarn" (insert "npm" ∅))) }

/-- A project whose package.json has an empty scripts object. -/
def dirC8wit : ProjectDir :=
  { packageJson := some (.obj [("scripts", .obj [])]) }

/-- The multi-repo context of spec section 8. -/
def ctxC7 : MultiRepoContext :=
  { cross_repo_patterns :=
      [("auth-flow", .obj [("repos", .arr [.str "core", .str "web"])]),
       ("billing", .obj [("repos", .arr [.str "api"])])] }

/-- A multi-repo context whose pattern record carries its own `pattern` key. -/
def ctxC9 : MultiRepoContext :=
  { cross_repo_patterns :=
      [("auth-flow", .obj [("pattern", .str "own-value"),
                           ("repos", .arr [.str "core"])])] }

theorem pyLookup_any {kvs : List (String × Json)} {k : String} {v : Json}
    (h : pyLookup kvs k = some v) : kvs.any (fun p => p.1 = k) = true := by
  induction kvs with
  | nil => simp [pyLookup] at h
  | cons p rest ih =>
    by_cases hp : p.1 = k
    · simp [hp]
    · simp [pyLookup, hp] at h
      simp [hp, ih h]

theorem pyLookup_none_any {kvs : List (String × Json)} {k : String}
    (h : pyLookup kvs k = none) : kvs.any (fun p => p.1 = k) = false := by
  induction kvs with
  | nil => simp
  | cons p rest ih =>
    by_cases hp : p.1 = k
    · simp [pyLookup, hp] at h
    · simp [pyLookup, hp] at h
      simp [hp, ih h]

theorem pyLookup_ne_nil {kvs : List (String × Json)} {k : String} {v : Json}
    (h : pyLookup kvs k = some v) : kvs ≠ [] := by
  intro hnil
  rw [hnil] at h
  simp [pyLookup] at h

theorem subset_npmLaunchInsert (s : Finset String) : s ⊆ npmLaunchInsert s := by
  intro x hx
  simp [npmLaunchInsert, Finset.mem_insert]
  tauto

theorem npmFour_subset_npmLaunchInsert (s : Finset String) :
    npmFour ⊆ npmLaunchInsert s := by
  intro x hx
  simp [npmFour, Finset.mem_insert] at hx
  simp [npmLaunchInsert, Finset.mem_insert]
  tauto

theorem mem_npmLaunchInsert {x : String} {s : Finset String}
    (h : x ∈ npmLaunchInsert s) : x ∈ s ∨ x ∈ npmFour := by
  simp [npmLaunchInsert, Finset.mem_insert] at h
  simp [npmFour, Finset.mem_insert]
  tauto

theorem subset_npmLoop (keys : List String) (s : Finset String) :
    s ⊆ npmLoop keys s := by
  induction keys generalizing s with
  | nil => simp [npmLoop]
  | cons k ks ih =>
    exact (subset_npmLaunchInsert s).trans (ih (npmLaunchInsert s))

theorem npmFour_subset_npmLoop {keys : List String} (h : keys ≠ [])
    (s : Finset String) : npmFour ⊆ npmLoop keys s := by
  match keys with
  | [] => exact absurd rfl h
  | k :: ks =>
    exact (npmFour_subset_npmLaunchInsert s).trans (subset_npmLoop ks _)

theorem mem_npmLoop {x : String} {keys : List String} {s : Finset String}
    (h : x ∈ npmLoop keys s) : x ∈ s ∨ x ∈ npmFour := by
  induction keys generalizing s with
  | nil => exact Or.inl h
  | cons k ks ih =>
    rcases ih h with h1 | h1
    · exact mem_npmLaunchInsert h1
    · exact Or.inr h1

theorem addMakeTarget_fields (st : AnalyzerState) (t : Json) :
    (addMakeTarget st t).script_commands = st.script_commands ∧
    (addMakeTarget st t).custom_commands = st.custom_commands ∧
    (addMakeTarget st t).custom_scripts.npm_scripts = st.custom_scripts.npm_scripts ∧
    (addMakeTarget st t).custom_scripts.poetry_scripts = st.custom_scripts.poetry_scripts ∧
    (addMakeTarget st t).custom_scripts.shell_scripts = st.custom_scripts.shell_scripts ∧
    (addMakeTarget st t).custom_scripts.mise_tasks = st.custom_scripts.mise_tasks := by
  unfold addMakeTarget
  split <;> simp

theorem foldl_addMakeTarget_fields (l : List Json) (st : AnalyzerState) :
    (l.foldl addMakeTarget st).script_commands = st.script_commands ∧
    (l.foldl addMakeTarget st).custom_commands = st.custom_commands ∧
    (l.foldl addMakeTarget st).custom_scripts.npm_scripts = st.custom_scripts.npm_scripts ∧
    (l.foldl addMakeTarget st).custom_scripts.poetry_scripts = st.custom_scripts.poetry_scripts ∧
    (l.foldl addMakeTarget st).custom_scripts.shell_scripts = st.custom_scripts.shell_scripts ∧
    (l.foldl addMakeTarget st).custom_scripts.mise_tasks = st.custom_scripts.mise_tasks := by
  induction l generalizing st with
  | nil => simp
  | cons a l ih =>
    have h1 := addMakeTarget_fields st a
    have h2 := ih (addMakeTarget st a)
    simp only [List.foldl_cons]
    exact ⟨h2.1.trans h1.1, h2.2.1.trans h1.2.1, h2.2.2.1.trans h1.2.2.1,
      h2.2.2.2.1.trans h1.2.2.2.1, h2.2.2.2.2.1.trans h1.2.2.2.2.1,
      h2.2.2.2.2.2.trans h1.2.2.2.2.2⟩

theorem addMiseTask_fields (st : AnalyzerState) (t : Json) :
    (addMiseTask st t).script_commands = st.script_commands ∧
    (addMiseTask st t).custom_commands = st.custom_commands ∧
    (addMiseTask st t).custom_scripts.npm_scripts = st.custom_scripts.npm_scripts ∧
    (addMiseTask st t).custom_scripts.poetry_scripts = st.custom_scripts.poetry_scripts ∧
    (addMiseTask st t).custom_scripts.shell_scripts = st.custom_scripts.shell_scripts ∧
    (addMiseTask st t).custom_scripts.make_targets = st.custom_scripts.make_targets := by
  unfold addMiseTask
  split <;> simp

theorem foldl_addMiseTask_fields (l : List Json) (st : AnalyzerState) :
    (l.foldl addMiseTask st).script_commands = st.script_commands ∧
    (l.foldl addMiseTask st).custom_commands = st.custom_commands ∧
    (l.foldl addMiseTask st).custom_scripts.npm_scripts = st.custom_scripts.npm_scripts ∧
    (l.foldl addMiseTask st).custom_scripts.poetry_scripts = st.custom_scripts.poetry_scripts ∧
    (l.foldl addMiseTask st).custom_scripts.shell_scripts = st.custom_scripts.shell_scripts ∧
    (l.foldl addMiseTask st).custom_scripts.make_targets = st.custom_scripts.make_targets := by
  induction l generalizing st with
  | nil => simp
  | cons a l ih =>
    have h1 := addMiseTask_fields st a
    have h2 := ih (addMiseTask st a)
    simp only [List.foldl_cons]
    exact ⟨h2.1.trans h1.1, h2.2.1.trans h1.2.1, h2.2.2.1.trans h1.2.2.1,
      h2.2.2.2.1.trans h1.2.2.2.1, h2.2.2.2.2.1.trans h1.2.2.2.2.1,
      h2.2.2.2.2.2.trans h1.2.2.2.2.2⟩

theorem pyIterate_falsy {j : Json} {es : List Json}
    (hok : pyIterate j = .ok es) (hf : pyTruthy j = false) : es = [] := by
  cases j <;> simp [pyIterate, pyTruthy] at hok hf <;> simp_all


theorem valPres_refl (st : AnalyzerState) : ValPres st st :=
  ⟨rfl, Finset.Subset.refl _, rfl⟩

theorem valPres_trans {a b c : AnalyzerState} (h1 : ValPres a b)
    (h2 : ValPres b c) : ValPres a c :=
  ⟨h2.1.trans h1.1, h1.2.1.trans h2.2.1, h2.2.2.trans h1.2.2⟩

theorem addValidationCmd_valPres {st st' : AnalyzerState} {c : Json}
    (h : addValidationCmd st c = .ok st') : ValPres st st' := by
  unfold addValidationCmd at h
  cases c <;> simp at h <;> try exact h ▸ valPres_refl st
  case str s =>
    by_cases hs : s = ""
    · simp [hs] at h
      exact h ▸ valPres_refl st
    · simp [hs] at h
      cases htok : pySplitWs s with
      | nil => simp [htok] at h
      | cons b rest =>
        simp [htok] at h
        by_cases hb : b = ""
        · simp [hb] at h
          exact h ▸ valPres_refl st
        · simp [hb] at h
          exact h ▸ ⟨rfl, Finset.subset_insert _ _, rfl⟩

theorem valCmdFold_valPres :
    ∀ (l : List (String × Json)) (s s' : AnalyzerState),
      valCmdFold l s = .ok s' → ValPres s s' := by
  intro l
  induction l with
  | nil =>
    intro s s' h
    simp [valCmdFold] at h
    exact h ▸ valPres_refl s
  | cons a l ih =>
    intro s s' h
    unfold valCmdFold at h
    cases hfa : addValidationCmd s a.2 with
    | error e => rw [hfa] at h; simp at h
    | ok s1 =>
      rw [hfa] at h
      exact valPres_trans (addValidationCmd_valPres hfa) (ih s1 s' h)

theorem addValidationCat_valPres {st st' : AnalyzerState} {c : Json}
    (h : addValidationCat st c = .ok st') : ValPres st st' := by
  unfold addValidationCat at h
  cases c <;> simp at h <;> try exact h ▸ valPres_refl st
  case obj kvs => exact valCmdFold_valPres kvs st st' h

theorem valCatFold_valPres :
    ∀ (l : List (String × Json)) (s s' : AnalyzerState),
      valCatFold l s = .ok s' → ValPres s s' := by
  intro l
  induction l with
  | nil =>
    intro s s' h
    simp [valCatFold] at h
    exact h ▸ valPres_refl s
  | cons a l ih =>
    intro s s' h
    unfold valCatFold at h
    cases hfa : addValidationCat s a.2 with
    | error e => rw [hfa] at h; simp at h
    | ok s1 =>
      rw [hfa] at h
      exact valPres_trans (addValidationCat_valPres hfa) (ih s1 s' h)

theorem condInsert_custom_scripts (b : Bool) (nm : String) (s : AnalyzerState) :
    (condInsert b nm s).custom_scripts = s.custom_scripts := by
  unfold condInsert
  split <;> simp

theorem condInsert_custom_commands (b : Bool) (nm : String) (s : AnalyzerState) :
    (condInsert b nm s).custom_commands = s.custom_commands := by
  unfold condInsert
  split <;> simp

theorem condInsert_sc_mono (b : Bool) (nm : String) (s : AnalyzerState) :
    s.script_commands ⊆ (condInsert b nm s).script_commands := by
  unfold condInsert
  split
  · exact Finset.subset_insert _ _
  · exact Finset.Subset.refl _

theorem condInsert_sc_mem {b : Bool} {nm x : String} {s : AnalyzerState}
    (h : x ∈ (condInsert b nm s).script_commands) :
    x ∈ s.script_commands ∨ x = nm := by
  unfold condInsert at h
  split at h
  · rcases Finset.mem_insert.mp h with h1 | h1
    · exact Or.inr h1
    · exact Or.inl h1
  · exact Or.inl h

theorem condInsert_sc_self {nm : String} (s : AnalyzerState) :
    nm ∈ (condInsert true nm s).script_commands := by
  simp [condInsert]


theorem finsetSubset_of_eq {a b : Finset String} (h : a = b) : a ⊆ b :=
  h ▸ Finset.Subset.refl a

theorem defPres_refl (st : AnalyzerState) : DefPres st st :=
  ⟨Finset.Subset.refl _, fun x hx => Or.inl hx, Finset.Subset.refl _, rfl, rfl, rfl⟩

theorem defPres_trans {a b c : AnalyzerState} (h1 : DefPres a b)
    (h2 : DefPres b c) : DefPres a c := by
  refine ⟨h1.1.trans h2.1, ?_, h1.2.2.1.trans h2.2.2.1,
    h2.2.2.2.1.trans h1.2.2.2.1, h2.2.2.2.2.1.trans h1.2.2.2.2.1,
    h2.2.2.2.2.2.trans h1.2.2.2.2.2⟩
  intro x hx
  rcases h2.2.1 x hx with h3 | h3 | h3
  · exact h1.2.1 x h3
  · exact Or.inr (Or.inl h3)
  · exact Or.inr (Or.inr h3)

theorem defPres_foldl_addMakeTarget (l : List Json) (st : AnalyzerState) :
    DefPres st (l.foldl addMakeTarget st) := by
  have hf := foldl_addMakeTarget_fields l st
  exact ⟨finsetSubset_of_eq hf.1.symm, fun x hx => Or.inl (hf.1 ▸ hx), finsetSubset_of_eq hf.2.1.symm,
    hf.2.2.1, hf.2.2.2.1, hf.2.2.2.2.1⟩

theorem defPres_foldl_addMiseTask (l : List Json) (st : AnalyzerState) :
    DefPres st (l.foldl addMiseTask st) := by
  have hf := foldl_addMiseTask_fields l st
  exact ⟨finsetSubset_of_eq hf.1.symm, fun x hx => Or.inl (hf.1 ▸ hx), finsetSubset_of_eq hf.2.1.symm,
    hf.2.2.1, hf.2.2.2.1, hf.2.2.2.2.1⟩

theorem defPres_condInsert (b : Bool) {nm : String}
    (hnm : nm = "make" ∨ nm = "mise") (s : AnalyzerState) :
    DefPres s (condInsert b nm s) := by
  refine ⟨condInsert_sc_mono b nm s, ?_, finsetSubset_of_eq (condInsert_custom_commands b nm s).symm,
    congrArg CustomScripts.npm_scripts (condInsert_custom_scripts b nm s),
    congrArg CustomScripts.poetry_scripts (condInsert_custom_scripts b nm s),
    congrArg CustomScripts.shell_scripts (condInsert_custom_scripts b nm s)⟩
  intro x hx
  rcases condInsert_sc_mem hx with h1 | h1
  · exact Or.inl h1
  · rcases hnm with h2 | h2
    · exact Or.inr (Or.inl (h2 ▸ h1))
    · exact Or.inr (Or.inr (h2 ▸ h1))

theorem defPres_of_valPres {a b : AnalyzerState} (h : ValPres a b) : DefPres a b :=
  ⟨finsetSubset_of_eq h.1.symm, fun x hx => Or.inl (h.1 ▸ hx), h.2.1,
    congrArg CustomScripts.npm_scripts h.2.2,
    congrArg CustomScripts.poetry_scripts h.2.2,
    congrArg CustomScripts.shell_scripts h.2.2⟩

theorem load_security_defaults_ok {df : DefaultsFile} {st st' : AnalyzerState}
    (h : load_security_defaults df st = .ok st') :
    DefPres st st' ∧ (MakeInv st → MakeInv st') := by
  cases df with
  | absent =>
    simp [load_security_defaults] at h
    subst h
    exact ⟨defPres_refl st, id⟩
  | unreadable =>
    simp [load_security_defaults] at h
    subst h
    exact ⟨defPres_refl st, id⟩
  | malformed =>
    simp [load_security_defaults] at h
    subst h
    exact ⟨defPres_refl st, id⟩
  | parsed data =>
    simp only [load_security_defaults] at h
    split at h
    next e heq => exact absurd h (by simp)
    next cs hcs =>
    split at h
    next e heq => exact absurd h (by simp)
    next mt hmt =>
    split at h
    next e heq => exact absurd h (by simp)
    next mtElems hit =>
    split at h
    next e heq => exact absurd h (by simp)
    next ms hms =>
    split at h
    next e heq => exact absurd h (by simp)
    next msElems him =>
    split at h
    next e heq => exact absurd h (by simp)
    next vc hvc =>
    split at h
    case _ vkvs =>
      have hvp := valCatFold_valPres vkvs _ st' h
      have hd1 := defPres_foldl_addMakeTarget mtElems st
      have hd2 := defPres_condInsert (pyTruthy mt) (Or.inl rfl)
        (mtElems.foldl addMakeTarget st)
      have hd3 := defPres_foldl_addMiseTask msElems
        (condInsert (pyTruthy mt) "make" (mtElems.foldl addMakeTarget st))
      have hd4 := defPres_condInsert (pyTruthy ms) (Or.inr rfl)
        (msElems.foldl addMiseTask
          (condInsert (pyTruthy mt) "make" (mtElems.foldl addMakeTarget st)))
      have hd5 := defPres_of_valPres hvp
      have hdp := defPres_trans hd1 (defPres_trans hd2 (defPres_trans hd3
        (defPres_trans hd4 hd5)))
      refine ⟨hdp, ?_⟩
      intro hmi hne
      by_cases hb : pyTruthy mt = true
      · have hmem : "make" ∈ (condInsert (pyTruthy mt) "make"
            (mtElems.foldl addMakeTarget st)).script_commands := by
          rw [hb]
          exact condInsert_sc_self _
        exact (defPres_trans hd3 (defPres_trans hd4 hd5)).1 hmem
      · have hb' : pyTruthy mt = false := by simpa using hb
        have hnil : mtElems = [] := pyIterate_falsy hit hb'
        have hmtEq : st'.custom_scripts.make_targets = st.custom_scripts.make_targets := by
          have e5 : st'.custom_scripts = _ := hvp.2.2
          rw [e5, condInsert_custom_scripts]
          have e3 := (foldl_addMiseTask_fields msElems
            (condInsert (pyTruthy mt) "make" (mtElems.foldl addMakeTarget st))).2.2.2.2.2
          rw [e3, condInsert_custom_scripts, hnil]
          simp
        exact hdp.1 (hmi (by rw [hmtEq] at hne; exact hne))
    case _ =>
      exact absurd h (by simp)

theorem makefileLine_fields (st : AnalyzerState) (line : String) :
    (makefileLine st line).script_commands = st.script_commands ∧
    (makefileLine st line).custom_commands = st.custom_commands ∧
    (makefileLine st line).custom_scripts.npm_scripts = st.custom_scripts.npm_scripts ∧
    (makefileLine st line).custom_scripts.poetry_scripts = st.custom_scripts.poetry_scripts ∧
    (makefileLine st line).custom_scripts.shell_scripts = st.custom_scripts.shell_scripts ∧
    (makefileLine st line).custom_scripts.mise_tasks = st.custom_scripts.mise_tasks := by
  unfold makefileLine
  split
  · split <;> simp
  · simp

theorem foldl_makefileLine_fields (l : List String) (st : AnalyzerState) :
    (l.foldl makefileLine st).script_commands = st.script_commands ∧
    (l.foldl makefileLine st).custom_commands = st.custom_commands ∧
    (l.foldl makefileLine st).custom_scripts.npm_scripts = st.custom_scripts.npm_scripts ∧
    (l.foldl makefileLine st).custom_scripts.poetry_scripts = st.custom_scripts.poetry_scripts ∧
    (l.foldl makefileLine st).custom_scripts.shell_scripts = st.custom_scripts.shell_scripts ∧
    (l.foldl makefileLine st).custom_scripts.mise_tasks = st.custom_scripts.mise_tasks := by
  induction l generalizing st with
  | nil => simp
  | cons a l ih =>
    have h1 := makefileLine_fields st a
    have h2 := ih (makefileLine st a)
    simp only [List.foldl_cons]
    exact ⟨h2.1.trans h1.1, h2.2.1.trans h1.2.1, h2.2.2.1.trans h1.2.2.1,
      h2.2.2.2.1.trans h1.2.2.2.1, h2.2.2.2.2.1.trans h1.2.2.2.2.1,
      h2.2.2.2.2.2.trans h1.2.2.2.2.2⟩

theorem detect_makefile_targets_facts (m : Option String) (st : AnalyzerState) :
    st.script_commands ⊆ (detect_makefile_targets m st).script_commands ∧
    (∀ x ∈ (detect_makefile_targets m st).script_commands,
      x ∈ st.script_commands ∨ x = "make") ∧
    (detect_makefile_targets m st).custom_commands = st.custom_commands ∧
    (detect_makefile_targets m st).custom_scripts.npm_scripts = st.custom_scripts.npm_scripts ∧
    (detect_makefile_targets m st).custom_scripts.poetry_scripts = st.custom_scripts.poetry_scripts ∧
    (detect_makefile_targets m st).custom_scripts.shell_scripts = st.custom_scripts.shell_scripts ∧
    (detect_makefile_targets m st).custom_scripts.mise_tasks = st.custom_scripts.mise_tasks ∧
    (MakeInv st → MakeInv (detect_makefile_targets m st)) := by
  unfold detect_makefile_targets
  split
  · exact ⟨Finset.Subset.refl _, fun x hx => Or.inl hx, rfl, rfl, rfl, rfl, rfl, id⟩
  · split
    · exact ⟨Finset.Subset.refl _, fun x hx => Or.inl hx, rfl, rfl, rfl, rfl, rfl, id⟩
    · next content hne =>
      have hf := foldl_makefileLine_fields (pySplitlines content) st
      have hcs := condInsert_custom_scripts
        (!(List.foldl makefileLine st (pySplitlines content)).custom_scripts.make_targets.isEmpty)
        "make" (List.foldl makefileLine st (pySplitlines content))
      refine ⟨?_, ?_, ?_, ?_, ?_, ?_, ?_, ?_⟩
      · exact (finsetSubset_of_eq hf.1.symm).trans (condInsert_sc_mono _ _ _)
      · intro x hx
        rcases condInsert_sc_mem hx with h1 | h1
        · exact Or.inl (hf.1 ▸ h1)
        · exact Or.inr h1
      · rw [condInsert_custom_commands]
        exact hf.2.1
      · rw [hcs]
        exact hf.2.2.1
      · rw [hcs]
        exact hf.2.2.2.1
      · rw [hcs]
        exact hf.2.2.2.2.1
      · rw [hcs]
        exact hf.2.2.2.2.2
      · intro _ hne2
        rw [hcs] at hne2
        have hb : (!(List.foldl makefileLine st
            (pySplitlines content)).custom_scripts.make_targets.isEmpty) = true := by
          simp [List.isEmpty_iff]
          exact hne2
        show "make" ∈ (condInsert (!(List.foldl makefileLine st
          (pySplitlines content)).custom_scripts.make_targets.isEmpty) "make"
          (List.foldl makefileLine st (pySplitlines content))).script_commands
        rw [hb]
        exact condInsert_sc_self _

theorem poetrySection_ok {toml : Json} {st st' : AnalyzerState}
    (h : poetrySection toml st = .ok st') :
    st'.script_commands = st.script_commands ∧
    st'.custom_commands = st.custom_commands ∧
    st'.custom_scripts.npm_scripts = st.custom_scripts.npm_scripts ∧
    st'.custom_scripts.make_targets = st.custom_scripts.make_targets ∧
    st'.custom_scripts.shell_scripts = st.custom_scripts.shell_scripts ∧
    st'.custom_scripts.mise_tasks = st.custom_scripts.mise_tasks := by
  unfold poetrySection at h
  split at h
  · exact absurd h (by simp)
  · simp at h
    subst h
    exact ⟨rfl, rfl, rfl, rfl, rfl, rfl⟩
  · split at h
    · exact absurd h (by simp)
    · split at h
      · exact absurd h (by simp)
      · simp at h
        subst h
        exact ⟨rfl, rfl, rfl, rfl, rfl, rfl⟩
      · split at h
        · exact absurd h (by simp)
        · split at h
          · exact absurd h (by simp)
          · split at h
            · exact absurd h (by simp)
            · simp at h
              subst h
              exact ⟨rfl, rfl, rfl, rfl, rfl, rfl⟩

theorem pep621Section_ok {toml : Json} {st st' : AnalyzerState}
    (h : pep621Section toml st = .ok st') :
    st'.script_commands = st.script_commands ∧
    st'.custom_commands = st.custom_commands ∧
    st'.custom_scripts.npm_scripts = st.custom_scripts.npm_scripts ∧
    st'.custom_scripts.make_targets = st.custom_scripts.make_targets ∧
    st'.custom_scripts.shell_scripts = st.custom_scripts.shell_scripts ∧
    st'.custom_scripts.mise_tasks = st.custom_scripts.mise_tasks := by
  unfold pep621Section at h
  split at h
  · exact absurd h (by simp)
  · simp at h
    subst h
    exact ⟨rfl, rfl, rfl, rfl, rfl, rfl⟩
  · split at h
    · exact absurd h (by simp)
    · split at h
      · exact absurd h (by simp)
      · simp at h
        subst h
        exact ⟨rfl, rfl, rfl, rfl, rfl, rfl⟩
      · split at h
        · exact absurd h (by simp)
        · split at h
          · exact absurd h (by simp)
          · simp at h
            subst h
            exact ⟨rfl, rfl, rfl, rfl, rfl, rfl⟩

theorem detect_poetry_scripts_ok {t : Option Json} {st st' : AnalyzerState}
    (h : detect_poetry_scripts t st = .ok st') :
    st'.script_commands = st.script_commands ∧
    st'.custom_commands = st.custom_commands ∧
    st'.custom_scripts.npm_scripts = st.custom_scripts.npm_scripts ∧
    st'.custom_scripts.make_targets = st.custom_scripts.make_targets ∧
    st'.custom_scripts.shell_scripts = st.custom_scripts.shell_scripts ∧
    st'.custom_scripts.mise_tasks = st.custom_scripts.mise_tasks := by
  unfold detect_poetry_scripts at h
  split at h
  · simp at h
    subst h
    exact ⟨rfl, rfl, rfl, rfl, rfl, rfl⟩
  · split at h
    · split at h
      · exact absurd h (by simp)
      · next st1 hps =>
        have h1 := poetrySection_ok hps
        have h2 := pep621Section_ok h
        exact ⟨h2.1.trans h1.1, h2.2.1.trans h1.2.1, h2.2.2.1.trans h1.2.2.1,
          h2.2.2.2.1.trans h1.2.2.2.1, h2.2.2.2.2.1.trans h1.2.2.2.2.1,
          h2.2.2.2.2.2.trans h1.2.2.2.2.2⟩
    · simp at h
      subst h
      exact ⟨rfl, rfl, rfl, rfl, rfl, rfl⟩

theorem detect_shell_scripts_facts (l : List String) (st : AnalyzerState) :
    st.script_commands ⊆ (detect_shell_scripts l st).script_commands ∧
    (∀ x ∈ (detect_shell_scripts l st).script_commands,
      x ∈ st.script_commands ∨ ∃ n, x = "./" ++ n) ∧
    (detect_shell_scripts l st).custom_commands = st.custom_commands ∧
    (detect_shell_scripts l st).custom_scripts.npm_scripts = st.custom_scripts.npm_scripts ∧
    (detect_shell_scripts l st).custom_scripts.make_targets = st.custom_scripts.make_targets ∧
    (detect_shell_scripts l st).custom_scripts.poetry_scripts = st.custom_scripts.poetry_scripts ∧
    (detect_shell_scripts l st).custom_scripts.mise_tasks = st.custom_scripts.mise_tasks := by
  induction l generalizing st with
  | nil =>
    exact ⟨Finset.Subset.refl _, fun x hx => Or.inl hx, rfl, rfl, rfl, rfl, rfl⟩
  | cons a l ih =>
    have h2 := ih ({ st with
      custom_scripts.shell_scripts := st.custom_scripts.shell_scripts ++ [a],
      script_commands := insert ("./" ++ a) st.script_commands })
    refine ⟨?_, ?_, h2.2.2.1, h2.2.2.2.1, h2.2.2.2.2.1, h2.2.2.2.2.2.1,
      h2.2.2.2.2.2.2⟩
    · exact (Finset.subset_insert _ _).trans h2.1
    · intro x hx
      rcases h2.2.1 x hx with h3 | h3
      · rcases Finset.mem_insert.mp h3 with h4 | h4
        · exact Or.inr ⟨a, h4⟩
        · exact Or.inl h4
      · exact Or.inr h3

theorem allowlistLine_facts (st : AnalyzerState) (line : String) :
    (allowlistLine st line).script_commands = st.script_commands ∧
    (allowlistLine st line).custom_scripts = st.custom_scripts ∧
    st.custom_commands ⊆ (allowlistLine st line).custom_commands := by
  unfold allowlistLine
  split
  · exact ⟨rfl, rfl, Finset.subset_insert _ _⟩
  · exact ⟨rfl, rfl, Finset.Subset.refl _⟩

theorem load_custom_allowlist_facts (c : Option String) (st : AnalyzerState) :
    (load_custom_allowlist c st).script_commands = st.script_commands ∧
    (load_custom_allowlist c st).custom_scripts = st.custom_scripts ∧
    st.custom_commands ⊆ (load_custom_allowlist c st).custom_commands := by
  unfold load_custom_allowlist
  split
  · exact ⟨rfl, rfl, Finset.Subset.refl _⟩
  · split
    · exact ⟨rfl, rfl, Finset.Subset.refl _⟩
    · next content hne =>
      generalize pySplitlines content = lines
      induction lines generalizing st with
      | nil => exact ⟨rfl, rfl, Finset.Subset.refl _⟩
      | cons a l ih =>
        have h1 := allowlistLine_facts st a
        have h2 := ih (allowlistLine st a)
        exact ⟨h2.1.trans h1.1, h2.2.1.trans h1.2.1, h1.2.2.trans h2.2.2⟩

theorem detect_npm_scripts_ok {p : Option Json} {st st' : AnalyzerState}
    (h : detect_npm_scripts p st = .ok st') :
    st.script_commands ⊆ st'.script_commands ∧
    (∀ x ∈ st'.script_commands, x ∈ st.script_commands ∨ x ∈ npmFour) ∧
    st'.custom_commands = st.custom_commands ∧
    st'.custom_scripts.make_targets = st.custom_scripts.make_targets ∧
    st'.custom_scripts.poetry_scripts = st.custom_scripts.poetry_scripts ∧
    st'.custom_scripts.shell_scripts = st.custom_scripts.shell_scripts ∧
    st'.custom_scripts.mise_tasks = st.custom_scripts.mise_tasks ∧
    (st.custom_scripts.npm_scripts = [] →
      (st'.custom_scripts.npm_scripts ≠ [] → npmFour ⊆ st'.script_commands)) := by
  unfold detect_npm_scripts at h
  split at h
  · simp at h
    subst h
    exact ⟨Finset.Subset.refl _, fun x hx => Or.inl hx, rfl, rfl, rfl, rfl, rfl,
      fun he => fun hne => absurd he hne⟩
  · split at h
    · split at h
      · exact absurd h (by simp)
      · simp at h
        subst h
        exact ⟨Finset.Subset.refl _, fun x hx => Or.inl hx, rfl, rfl, rfl, rfl, rfl,
          fun he => fun hne => absurd he hne⟩
      · split at h
        · exact absurd h (by simp)
        · next sv hsv =>
          split at h
          · exact absurd h (by simp)
          · next keys hkeys =>
            simp at h
            subst h
            refine ⟨subset_npmLoop keys _, ?_, rfl, rfl, rfl, rfl, rfl, ?_⟩
            · intro x hx
              exact mem_npmLoop hx
            · intro _ hne
              have hkne : keys ≠ [] := by
                intro hk
                simp [hk] at hne
              exact npmFour_subset_npmLoop hkne _
    · simp at h
      subst h
      exact ⟨Finset.Subset.refl _, fun x hx => Or.inl hx, rfl, rfl, rfl, rfl, rfl,
        fun he => fun hne => absurd he hne⟩

theorem makeInv_mono {a b : AnalyzerState}
    (hmk : b.custom_scripts.make_targets = a.custom_scripts.make_targets)
    (hsc : a.script_commands ⊆ b.script_commands) (h : MakeInv a) : MakeInv b := by
  intro hne
  exact hsc (h (by rw [hmk] at hne; exact hne))

theorem analyze_ok_chain {d : ProjectDir} {st' : AnalyzerState}
    (h : analyze d = .ok st') :
    ∃ st1 st3,
      detect_npm_scripts d.packageJson {} = .ok st1 ∧
      detect_poetry_scripts d.pyprojectToml
        (detect_makefile_targets d.makefile st1) = .ok st3 ∧
      load_security_defaults d.securityDefaults
        (load_custom_allowlist d.allowlist
          (detect_shell_scripts d.shellScripts st3)) = .ok st' := by
  unfold analyze at h
  split at h
  · exact absurd h (by simp)
  · next st5 heq =>
    unfold analyze_pre_defaults at heq
    split at heq
    · exact absurd heq (by simp)
    · next st0 heq2 =>
      unfold detect_custom_scripts at heq2
      split at heq2
      · exact absurd heq2 (by simp)
      · next st1 h1 =>
        split at heq2
        · exact absurd heq2 (by simp)
        · next st3 h3 =>
          simp at heq2 heq
          subst heq2
          subst heq
          exact ⟨st1, st3, h1, h3, h⟩

theorem analyze_ok_facts {d : ProjectDir} {st' : AnalyzerState}
    (h : analyze d = .ok st') :
    (st'.custom_scripts.npm_scripts ≠ [] → npmFour ⊆ st'.script_commands) ∧
    (st'.custom_scripts.make_targets ≠ [] → "make" ∈ st'.script_commands) ∧
    st'.custom_scripts.npm_scripts =
      (match detect_npm_scripts d.packageJson {} with
       | .ok st1 => st1.custom_scripts.npm_scripts
       | .error _ => []) ∧
    (∀ st1, detect_npm_scripts d.packageJson {} = .ok st1 →
      st1.script_commands ⊆ st'.script_commands) := by
  obtain ⟨st1, st3, h1, h3, h5⟩ := analyze_ok_chain h
  have hn := detect_npm_scripts_ok h1
  have hm := detect_makefile_targets_facts d.makefile st1
  have hp := detect_poetry_scripts_ok h3
  have hs := detect_shell_scripts_facts d.shellScripts st3
  have ha := load_custom_allowlist_facts d.allowlist
    (detect_shell_scripts d.shellScripts st3)
  have hl := load_security_defaults_ok h5
  have hscsub : st1.script_commands ⊆ st'.script_commands := by
    refine (hm.1.trans ?_).trans hl.1.1
    rw [← hp.1]
    refine hs.1.trans ?_
    rw [← ha.1]
  have hnpmEq : st'.custom_scripts.npm_scripts = st1.custom_scripts.npm_scripts := by
    rw [hl.1.2.2.2.1, ha.2.1, hs.2.2.2.1, hp.2.2.1, hm.2.2.2.1]
  refine ⟨?_, ?_, ?_, ?_⟩
  · intro hne
    rw [hnpmEq] at hne
    exact (hn.2.2.2.2.2.2.2 rfl hne).trans hscsub
  · intro hne
    have hmi1 : MakeInv st1 := by
      intro hne1
      rw [hn.2.2.2.1] at hne1
      exact absurd rfl hne1
    have hmi2 := hm.2.2.2.2.2.2.2 hmi1
    have hmi3 : MakeInv st3 := makeInv_mono hp.2.2.2.1 (finsetSubset_of_eq hp.1.symm) hmi2
    have hmi4 : MakeInv (detect_shell_scripts d.shellScripts st3) :=
      makeInv_mono hs.2.2.2.2.1 hs.1 hmi3
    have hmi5 : MakeInv (load_custom_allowlist d.allowlist
        (detect_shell_scripts d.shellScripts st3)) :=
      makeInv_mono (congrArg CustomScripts.make_targets ha.2.1)
        (finsetSubset_of_eq ha.1.symm) hmi4
    exact hl.2 hmi5 hne
  · rw [h1]
    exact hnpmEq
  · intro st1b h1b
    rw [h1b] at h1
    cases h1
    exact hscsub

theorem detect_npm_scripts_eval {pkvs skvs : List (String × Json)}
    (st : AnalyzerState)
    (hscr : pyLookup pkvs "scripts" = some (Json.obj skvs)) :
    detect_npm_scripts (some (Json.obj pkvs)) st = .ok
      { st with
        custom_scripts.npm_scripts := skvs.map (fun p => p.1),
        script_commands := npmLoop (skvs.map (fun p => p.1)) st.script_commands } := by
  have htr : pyTruthy (Json.obj pkvs) = true := by
    have h1 := pyLookup_ne_nil hscr
    simp [pyTruthy, List.isEmpty_iff]
    exact h1
  have hin : pyIn "scripts" (Json.obj pkvs) = .ok true := by
    simp only [pyIn]
    rw [pyLookup_any hscr]
  have hsub : pySubscript (Json.obj pkvs) "scripts" = .ok (Json.obj skvs) := by
    simp [pySubscript, hscr]
  simp [detect_npm_scripts, htr, hin, hsub, pyKeys]

theorem analyze_sc_members {d : ProjectDir} {st' : AnalyzerState}
    (h : analyze d = .ok st') :
    ∀ x ∈ st'.script_commands,
      (∃ st1, detect_npm_scripts d.packageJson {} = .ok st1 ∧
        x ∈ st1.script_commands) ∨
      x = "make" ∨ x = "mise" ∨ ∃ n, x = "./" ++ n := by
  obtain ⟨st1, st3, h1, h3, h5⟩ := analyze_ok_chain h
  have hm := detect_makefile_targets_facts d.makefile st1
  have hp := detect_poetry_scripts_ok h3
  have hs := detect_shell_scripts_facts d.shellScripts st3
  have ha := load_custom_allowlist_facts d.allowlist
    (detect_shell_scripts d.shellScripts st3)
  have hl := load_security_defaults_ok h5
  intro x hx
  rcases hl.1.2.1 x hx with h6 | h6 | h6
  · rw [ha.1] at h6
    rcases hs.2.1 x h6 with h7 | h7
    · rw [hp.1] at h7
      rcases hm.2.1 x h7 with h8 | h8
      · exact Or.inl ⟨st1, h1, h8⟩
      · exact Or.inr (Or.inl h8)
    · exact Or.inr (Or.inr (Or.inr h7))
  · exact Or.inr (Or.inl h6)
  · exact Or.inr (Or.inr (Or.inl h6))

theorem head_dotSlash (n : String) : ("./" ++ n).toList.head? = some '.' := rfl

theorem npmFour_ne_dotSlash {x : String} (hx : x ∈ npmFour) (n : String) :
    x ≠ "./" ++ n := by
  intro h
  have h1 : x.toList.head? = some '.' := by rw [h]; exact head_dotSlash n
  have h2 : x = "npm" ∨ x = "yarn" ∨ x = "pnpm" ∨ x = "bun" := by
    simpa [npmFour, Finset.mem_insert] using hx
  rcases h2 with h3 | h3 | h3 | h3 <;> subst h3 <;> simp at h1

theorem pyLookup_none_of_any_false {kvs : List (String × Json)} {k : String}
    (h : kvs.any (fun p => p.1 = k) = false) : pyLookup kvs k = none := by
  induction kvs with
  | nil => rfl
  | cons p rest ih =>
    simp at h
    simp [pyLookup, h.1, ih (by simp; exact h.2)]

theorem pyLookup_append_some {a : List (String × Json)} {k : String} {w : Json}
    (h : pyLookup a k = some w) (l : List (String × Json)) :
    pyLookup (a ++ l) k = some w := by
  induction a with
  | nil => simp [pyLookup] at h
  | cons p rest ih =>
    by_cases hp : p.1 = k
    · simp [pyLookup, hp] at h ⊢
      exact h
    · simp [pyLookup, hp] at h ⊢
      exact ih h

theorem pyLookup_append_none {a : List (String × Json)} {k k' : String} {v : Json}
    (h : pyLookup a k = none) :
    pyLookup (a ++ [(k', v)]) k = if k' = k then some v else none := by
  induction a with
  | nil => simp [pyLookup]
  | cons p rest ih =>
    by_cases hp : p.1 = k
    · simp [pyLookup, hp] at h
    · simp [pyLookup, hp] at h ⊢
      exact ih h

theorem pyLookup_map_set_self {a : List (String × Json)} {k' : String} {v : Json}
    (h : a.any (fun p => p.1 = k') = true) :
    pyLookup (a.map (fun p => if p.1 = k' then (k', v) else p)) k' = some v := by
  induction a with
  | nil => simp at h
  | cons p rest ih =>
    by_cases hp : p.1 = k'
    · simp [pyLookup, hp]
    · rw [List.any_cons] at h
      have h2 : rest.any (fun q => q.1 = k') = true := by
        cases hpq : decide (p.1 = k') with
        | true => exact absurd (of_decide_eq_true hpq) hp
        | false =>
          rw [hpq, Bool.false_or] at h
          exact h
      simp [pyLookup, hp, ih h2]

theorem pyLookup_map_set_other {a : List (String × Json)} {k k' : String} {v : Json}
    (hne : k ≠ k') :
    pyLookup (a.map (fun p => if p.1 = k' then (k', v) else p)) k = pyLookup a k := by
  induction a with
  | nil => rfl
  | cons p rest ih =>
    by_cases hp : p.1 = k'
    · have hkk : ¬(k' = k) := fun he => hne he.symm
      have hpk : ¬(p.1 = k) := by
        rw [hp]
        exact hkk
      simp [pyLookup, hp, hkk, hpk, ih]
    · simp [pyLookup, hp, ih]

theorem dictSet_lookup (a : List (String × Json)) (k' k : String) (v : Json) :
    pyLookup (dictSet a k' v) k = if k = k' then some v else pyLookup a k := by
  unfold dictSet
  split
  · next hany =>
    by_cases hk : k = k'
    · subst hk
      simp [pyLookup_map_set_self hany]
    · simp [hk, pyLookup_map_set_other hk]
  · next hany =>
    have hnone : pyLookup a k' = none :=
      pyLookup_none_of_any_false (Bool.eq_false_iff.mpr hany)
    by_cases hk : k = k'
    · subst hk
      rw [pyLookup_append_none hnone]
      simp
    · cases hl : pyLookup a k with
      | some w => simp [hk, pyLookup_append_some hl]
      | none =>
        have hk2 : ¬(k' = k) := fun he => hk he.symm
        rw [pyLookup_append_none hl]
        simp [hk, hk2, hl]

theorem pyLookup_fold_dictSet_not_mem :
    ∀ (l : List (String × Json)) (acc : List (String × Json)) (k : String),
      (∀ p ∈ l, p.1 ≠ k) →
      pyLookup (l.foldl (fun a p => dictSet a p.1 p.2) acc) k = pyLookup acc k := by
  intro l
  induction l with
  | nil => intro acc k _; rfl
  | cons p rest ih =>
    intro acc k hne
    simp only [List.foldl_cons]
    rw [ih (dictSet acc p.1 p.2) k (fun q hq => hne q (List.mem_cons_of_mem p hq))]
    rw [dictSet_lookup]
    have hk : ¬(k = p.1) := fun he => hne p (List.mem_cons_self p rest) he.symm
    simp [hk]

theorem pyLookup_fold_dictSet_of_nodup :
    ∀ (kvs : List (String × Json)) (acc : List (String × Json)) (k : String) (v : Json),
      (kvs.map Prod.fst).Nodup → pyLookup kvs k = some v →
      pyLookup (kvs.foldl (fun a p => dictSet a p.1 p.2) acc) k = some v := by
  intro kvs
  induction kvs with
  | nil => intro acc k v _ h; simp [pyLookup] at h
  | cons p rest ih =>
    intro acc k v hnd h
    rw [List.map_cons, List.nodup_cons] at hnd
    simp only [List.foldl_cons]
    by_cases hp : p.1 = k
    · have hv : v = p.2 := by
        simp [pyLookup, hp] at h
        exact h.symm
      subst hv
      rw [pyLookup_fold_dictSet_not_mem rest (dictSet acc p.1 p.2) k ?hne]
      · rw [dictSet_lookup]
        simp [hp]
      · intro q hq he
        exact hnd.1 (hp ▸ he ▸ List.mem_map_of_mem Prod.fst hq)
    · have h2 : pyLookup rest k = some v := by
        simp [pyLookup, hp] at h
        exact h
      exact ih (dictSet acc p.1 p.2) k v hnd.2 h2


theorem hasKeyB_dictSet (a : List (String × Json)) (k' k : String) (v : Json) :
    hasKeyB (dictSet a k' v) k = (hasKeyB a k || decide (k' = k)) := by
  unfold dictSet hasKeyB
  split
  · next hany =>
    have hmap : (a.map (fun p => if p.1 = k' then (k', v) else p)).any
        (fun p => p.1 = k) = a.any (fun p => p.1 = k) := by
      rw [List.any_map]
      congr 1
      funext p
      by_cases hp : p.1 = k'
      · simp [Function.comp, hp]
      · simp [Function.comp, hp]
    rw [hmap]
    by_cases hk : k' = k
    · have : a.any (fun p => p.1 = k) = true := by
        rw [← hk]
        exact hany
      simp [this]
    · simp [hk]
  · simp

theorem hasKeyB_fold_dictSet :
    ∀ (l : List (String × Json)) (acc : List (String × Json)) (k : String),
      hasKeyB (l.foldl (fun a p => dictSet a p.1 p.2) acc) k =
        (hasKeyB acc k || l.any (fun p => p.1 = k)) := by
  intro l
  induction l with
  | nil => intro acc k; simp
  | cons p rest ih =>
    intro acc k
    simp only [List.foldl_cons]
    rw [ih (dictSet acc p.1 p.2) k]
    rw [hasKeyB_dictSet]
    simp [List.any_cons, Bool.or_assoc]

theorem hasKeyB_mkImpact_repos (pn : String) (kvs : List (String × Json)) :
    hasKeyB (mkImpact pn kvs) "repos" = hasKeyB kvs "repos" := by
  unfold mkImpact
  rw [hasKeyB_fold_dictSet]
  simp [hasKeyB]

theorem impactScan_elems_have_repos :
    ∀ (pats : List (String × Json)) (nm : String)
      (res : List (List (String × Json))),
      impactScan pats nm = .ok res →
      ∀ dct ∈ res, hasKeyB dct "repos" = true := by
  intro pats
  induction pats with
  | nil =>
    intro nm res h dct hd
    simp [impactScan] at h
    subst h
    simp at hd
  | cons hd0 rest ih =>
    intro nm res h dct hd
    obtain ⟨pn, info⟩ := hd0
    cases info with
    | obj kvs =>
      simp only [impactScan] at h
      cases hb : pyIn nm ((pyLookup kvs "repos").getD (Json.arr [])) with
      | error e => rw [hb] at h; simp at h
      | ok b =>
        rw [hb] at h
        cases hrest : impactScan rest nm with
        | error e => rw [hrest] at h; simp at h
        | ok res' =>
          rw [hrest] at h
          simp at h
          subst h
          cases hrep : pyLookup kvs "repos" with
          | none =>
            rw [hrep] at hb
            simp [pyIn] at hb
            subst hb
            simp at hd
            exact ih nm res' hrest dct hd
          | some r =>
            have hk : hasKeyB kvs "repos" = true := by
              unfold hasKeyB
              exact pyLookup_any hrep
            cases b with
            | false =>
              simp at hd
              exact ih nm res' hrest dct hd
            | true =>
              simp at hd
              rcases hd with hd1 | hd1
              · subst hd1
                rw [hasKeyB_mkImpact_repos]
                exact hk
              · exact ih nm res' hrest dct hd1
    | null => simp [impactScan] at h
    | bool b => simp [impactScan] at h
    | num n => simp [impactScan] at h
    | str s => simp [impactScan] at h
    | arr xs => simp [impactScan] at h

theorem impactScan_complete :
    ∀ (pats : List (String × Json)) (nm pn : String) (kvs : List (String × Json))
      (rs : List Json) (res : List (List (String × Json))),
      impactScan pats nm = .ok res →
      (pn, Json.obj kvs) ∈ pats →
      pyLookup kvs "repos" = some (Json.arr rs) →
      Json.str nm ∈ rs →
      mkImpact pn kvs ∈ res := by
  intro pats
  induction pats with
  | nil =>
    intro nm pn kvs rs res h hmem _ _
    simp at hmem
  | cons hd0 rest ih =>
    intro nm pn kvs rs res h hmem hrep hin
    obtain ⟨pn', info⟩ := hd0
    cases info with
    | obj kvs' =>
      simp only [impactScan] at h
      cases hb : pyIn nm ((pyLookup kvs' "repos").getD (Json.arr [])) with
      | error e => rw [hb] at h; simp at h
      | ok b =>
        rw [hb] at h
        cases hrest : impactScan rest nm with
        | error e => rw [hrest] at h; simp at h
        | ok res' =>
          rw [hrest] at h
          simp at h
          subst h
          rcases List.mem_cons.mp hmem with hmem1 | hmem1
          · have hpn : pn = pn' := congrArg Prod.fst hmem1
            have hkv : Json.obj kvs = Json.obj kvs' := congrArg Prod.snd hmem1
            have hkv2 : kvs = kvs' := by injection hkv
            subst hpn
            subst hkv2
            rw [hrep] at hb
            have hany : rs.any (fun j => jsonEqStr j nm) = true := by
              apply List.any_eq_true.mpr
              exact ⟨Json.str nm, hin, by simp [jsonEqStr]⟩
            simp [pyIn, hany] at hb
            subst hb
            simp
          · rcases b with _ | _
            · simp
              exact ih nm pn kvs rs res' hrest hmem1 hrep hin
            · simp
              exact Or.inr (ih nm pn kvs rs res' hrest hmem1 hrep hin)
    | null => simp [impactScan] at h
    | bool b2 => simp [impactScan] at h
    | num n2 => simp [impactScan] at h
    | str s2 => simp [impactScan] at h
    | arr xs2 => simp [impactScan] at h


theorem analyze_pre_defaults_sd (d : ProjectDir) (df : DefaultsFile) :
    analyze_pre_defaults { d with securityDefaults := df } =
      analyze_pre_defaults d := rfl

theorem analyze_skip_defaults (d : ProjectDir) (df : DefaultsFile)
    (hdf : ∀ st, load_security_defaults df st = .ok st) :
    analyze { d with securityDefaults := df } = analyze_pre_defaults d := by
  unfold analyze
  rw [analyze_pre_defaults_sd]
  cases h : analyze_pre_defaults d with
  | error e => rfl
  | ok st => exact hdf st

/-- C1: the claim says a whitespace-only validation command string is skipped
and resolution completes without raising; the code instead evaluates
`cmd.split()[0]` on the truthy blank string, whose token list is empty, and
raises an uncaught `IndexError`.  The empty string (the guarded case) is
skipped as documented; the whitespace-only string aborts the whole
resolution. -/
theorem claim_C1_blank_validation_raises :
    analyze dirC1 = .error () ∧ analyze dirC1empty = .ok {} :=
  ⟨rfl, rfl⟩

/-- C2 (counterexample): a project whose pyproject.toml declares one poetry
script yields a non-empty task-runner catalog, yet `script_commands` stays
empty — no task-runner invocation name (`poetry`) is ever added. -/
theorem claim_C2_counterexample :
    getPoetryScripts (analyze dirC2cex) = ["serve"] ∧
    getScriptCommands (analyze dirC2cex) = ∅ ∧
    "poetry" ∉ getScriptCommands (analyze dirC2cex) :=
  ⟨rfl, rfl, by decide⟩

/-- C2 (amended): whenever resolution completes, a non-empty package-manager
catalog implies all four npm-family launchers are in `scriptCommands`, and a
non-empty build-target catalog implies `make` is; the task-runner (poetry)
part of the claim is dropped, since `_detect_poetry_scripts` never touches
`script_commands`. -/
theorem claim_C2_launchers (d : ProjectDir) (st : AnalyzerState)
    (h : analyze d = .ok st) :
    (st.custom_scripts.npm_scripts ≠ [] → npmFour ⊆ st.script_commands) ∧
    (st.custom_scripts.make_targets ≠ [] → "make" ∈ st.script_commands) := by
  have hf := analyze_ok_facts h
  exact ⟨hf.1, hf.2.1⟩

/-- C2 (witness): the amended invariant instantiated on a project with one
npm script and one Makefile target. -/
theorem claim_C2_witness :
    analyze dirC2wit = .ok stC2wit ∧
    ((stC2wit.custom_scripts.npm_scripts ≠ [] → npmFour ⊆ stC2wit.script_commands) ∧
     (stC2wit.custom_scripts.make_targets ≠ [] → "make" ∈ stC2wit.script_commands)) :=
  ⟨rfl, claim_C2_launchers dirC2wit stC2wit rfl⟩

/-- C3 (counterexample): on the spec's example Makefile the build-target
catalog is not `["build", "test", "lint"]` — the indented `  test: build`
line does not match the start-of-line identifier pattern. -/
theorem claim_C3_counterexample :
    getMakeTargets (analyze dirC3) ≠
      [Json.str "build", Json.str "test", Json.str "lint"] := by
  have hval : getMakeTargets (analyze dirC3) = [Json.str "build", Json.str "lint"] := rfl
  rw [hval]
  intro heq
  injection heq with h1 h2
  injection h2 with h3 h4
  exact List.noConfusion h4

/-- C3 (amended): on that Makefile the catalog is `["build", "lint"]`
(`.PHONY` and the indented and tab-indented lines excluded) and `make` is in
`scriptCommands`. -/
theorem claim_C3_make_targets :
    getMakeTargets (analyze dirC3) = [Json.str "build", Json.str "lint"] ∧
    "make" ∈ getScriptCommands (analyze dirC3) :=
  ⟨rfl, by decide⟩

/-- C4: an unreadable (OSError) or malformed (JSONDecodeError) security
defaults file leaves the state untouched, and resolution returns exactly
what the detectors and the allowlist step produced — identical to the file
being absent. -/
theorem claim_C4_defaults_tolerant (d : ProjectDir) (st : AnalyzerState) :
    load_security_defaults .malformed st = .ok st ∧
    load_security_defaults .unreadable st = .ok st ∧
    analyze { d with securityDefaults := .malformed } =
      analyze { d with securityDefaults := .absent } ∧
    analyze { d with securityDefaults := .unreadable } =
      analyze { d with securityDefaults := .absent } ∧
    analyze { d with securityDefaults := .absent } = analyze_pre_defaults d := by
  have hm := analyze_skip_defaults d .malformed (fun s => rfl)
  have hu := analyze_skip_defaults d .unreadable (fun s => rfl)
  have ha := analyze_skip_defaults d .absent (fun s => rfl)
  exact ⟨rfl, rfl, hm.trans ha.symm, hu.trans ha.symm, ha⟩

/-- C5: with all other inputs equal, the command sets produced with a
security-defaults file present are supersets of those produced with it
absent — the defaults merge only ever adds entries. -/
theorem claim_C5_superset (d : ProjectDir) (st st0 : AnalyzerState)
    (h : analyze d = .ok st)
    (h0 : analyze { d with securityDefaults := .absent } = .ok st0) :
    st0.script_commands ⊆ st.script_commands ∧
    st0.custom_commands ⊆ st.custom_commands := by
  rw [analyze_skip_defaults d .absent (fun s => rfl)] at h0
  unfold analyze at h
  rw [h0] at h
  simp at h
  have hl := load_security_defaults_ok h
  exact ⟨hl.1.1, hl.1.2.2.1⟩

/-- C5 (witness): the superset property instantiated on a project with a
user allowlist entry and a defaults file adding one validation command. -/
theorem claim_C5_witness :
    analyze dirC5wit = .ok stC5wit ∧
    analyze { dirC5wit with securityDefaults := .absent } = .ok stC5abs ∧
    stC5abs.script_commands ⊆ stC5wit.script_commands ∧
    stC5abs.custom_commands ⊆ stC5wit.custom_commands := by
  refine ⟨rfl, rfl, ?_, ?_⟩
  · exact (claim_C5_superset dirC5wit stC5wit stC5abs rfl rfl).1
  · exact (claim_C5_superset dirC5wit stC5wit stC5abs rfl rfl).2

/-- C6: for every package.json parsing to an object whose `scripts` value is
a non-empty object, a completed resolution records exactly the script keys,
in declaration order, as the package-manager catalog, and all four launcher
names are in `scriptCommands`. -/
theorem claim_C6_npm_scripts (d : ProjectDir) (pkvs skvs : List (String × Json))
    (st : AnalyzerState)
    (hpkg : d.packageJson = some (Json.obj pkvs))
    (hscr : pyLookup pkvs "scripts" = some (Json.obj skvs))
    (hne : skvs ≠ [])
    (h : analyze d = .ok st) :
    st.custom_scripts.npm_scripts = skvs.map (fun p => p.1) ∧
    npmFour ⊆ st.script_commands := by
  have hf := analyze_ok_facts h
  have hev := detect_npm_scripts_eval ({} : AnalyzerState) hscr
  have h3 : st.custom_scripts.npm_scripts = skvs.map (fun p => p.1) := by
    have h4 := hf.2.2.1
    rw [hpkg, hev] at h4
    simpa using h4
  refine ⟨h3, ?_⟩
  apply hf.1
  rw [h3]
  intro hmapnil
  exact hne (List.map_eq_nil.mp hmapnil)

/-- C6 (witness): instantiated on a package.json with a single script. -/
theorem claim_C6_witness :
    dirC6wit.packageJson =
      some (Json.obj [("scripts", Json.obj [("build", Json.str "tsc")])]) ∧
    analyze dirC6wit = .ok stC6wit ∧
    stC6wit.custom_scripts.npm_scripts = ["build"] ∧
    npmFour ⊆ stC6wit.script_commands := by
  have h := claim_C6_npm_scripts dirC6wit
    [("scripts", Json.obj [("build", Json.str "tsc")])]
    [("build", Json.str "tsc")] stC6wit rfl rfl (by simp) rfl
  exact ⟨rfl, rfl, h.1, h.2⟩

/-- C8: a package.json whose `scripts` object is empty leaves the
package-manager catalog empty and adds none of the four launcher names to
`scriptCommands` on a completed resolution. -/
theorem claim_C8_empty_scripts (d : ProjectDir) (pkvs : List (String × Json))
    (st : AnalyzerState)
    (hpkg : d.packageJson = some (Json.obj pkvs))
    (hscr : pyLookup pkvs "scripts" = some (Json.obj []))
    (h : analyze d = .ok st) :
    st.custom_scripts.npm_scripts = [] ∧
    "npm" ∉ st.script_commands ∧ "yarn" ∉ st.script_commands ∧
    "pnpm" ∉ st.script_commands ∧ "bun" ∉ st.script_commands := by
  have hf := analyze_ok_facts h
  have hev := detect_npm_scripts_eval ({} : AnalyzerState) hscr
  have h1 : st.custom_scripts.npm_scripts = [] := by
    have h2 := hf.2.2.1
    rw [hpkg, hev] at h2
    simpa using h2
  have hmem := analyze_sc_members h
  have hnot : ∀ x ∈ npmFour, x ∉ st.script_commands := by
    intro x hx hmemx
    rcases hmem x hmemx with ⟨st1, hst1, hmem1⟩ | h4 | h4 | ⟨n, h4⟩
    · rw [hpkg, hev] at hst1
      injection hst1 with h5
      rw [← h5] at hmem1
      simp [npmLoop] at hmem1
    · rw [h4] at hx
      exact absurd hx (by decide)
    · rw [h4] at hx
      exact absurd hx (by decide)
    · exact npmFour_ne_dotSlash hx n h4
  exact ⟨h1, hnot "npm" (by decide), hnot "yarn" (by decide),
    hnot "pnpm" (by decide), hnot "bun" (by decide)⟩

/-- C8 (witness): instantiated on a package.json with an empty scripts
object; resolution returns the pristine empty state. -/
theorem claim_C8_witness :
    dirC8wit.packageJson = some (Json.obj [("scripts", Json.obj [])]) ∧
    analyze dirC8wit = .ok ({} : AnalyzerState) ∧
    (({} : AnalyzerState).custom_scripts.npm_scripts = [] ∧
     "npm" ∉ ({} : AnalyzerState).script_commands ∧
     "yarn" ∉ ({} : AnalyzerState).script_commands ∧
     "pnpm" ∉ ({} : AnalyzerState).script_commands ∧
     "bun" ∉ ({} : AnalyzerState).script_commands) :=
  ⟨rfl, rfl, claim_C8_empty_scripts dirC8wit [("scripts", Json.obj [])] {} rfl rfl rfl⟩

/-- C7: on the spec's two-pattern context the impact query for `core`
returns exactly the one merged `auth-flow` record; and in general every
pattern whose `repos` list contains the queried name contributes its
(pattern name, record) merge to the result of a completed query. -/
theorem claim_C7_cross_repo_impact :
    ctxC7.get_cross_repo_impact "core" =
      .ok [[("pattern", Json.str "auth-flow"),
            ("repos", Json.arr [Json.str "core", Json.str "web"])]] ∧
    (∀ (pats : List (String × Json)) (nm pn : String)
       (kvs : List (String × Json)) (rs : List Json)
       (res : List (List (String × Json))),
       impactScan pats nm = .ok res →
       (pn, Json.obj kvs) ∈ pats →
       pyLookup kvs "repos" = some (Json.arr rs) →
       Json.str nm ∈ rs →
       mkImpact pn kvs ∈ res) :=
  ⟨rfl, impactScan_complete⟩

/-- C7 (witness): the completeness half applied to the `auth-flow` pattern
of the concrete context. -/
theorem claim_C7_witness :
    impactScan ctxC7.cross_repo_patterns "core" =
      .ok [[("pattern", Json.str "auth-flow"),
            ("repos", Json.arr [Json.str "core", Json.str "web"])]] ∧
    mkImpact "auth-flow" [("repos", Json.arr [Json.str "core", Json.str "web"])] ∈
      [[("pattern", Json.str "auth-flow"),
        ("repos", Json.arr [Json.str "core", Json.str "web"])]] := by
  refine ⟨rfl, ?_⟩
  exact claim_C7_cross_repo_impact.2 ctxC7.cross_repo_patterns "core" "auth-flow"
    [("repos", Json.arr [Json.str "core", Json.str "web"])]
    [Json.str "core", Json.str "web"] _ rfl (List.mem_cons_self _ _) rfl
    (List.mem_cons_self _ _)

/-- C9: when a pattern record itself carries a `pattern` key, the merged
dict returned for it maps `pattern` to the record's own value — the record
entries are merged after the injected pattern name and override it; shown
concretely on a one-pattern context and in general for every record with
distinct keys. -/
theorem claim_C9_pattern_override :
    ctxC9.get_cross_repo_impact "core" =
      .ok [[("pattern", Json.str "own-value"),
            ("repos", Json.arr [Json.str "core"])]] ∧
    (∀ (pn : String) (kvs : List (String × Json)) (v : Json),
      (kvs.map Prod.fst).Nodup →
      pyLookup kvs "pattern" = some v →
      pyLookup (mkImpact pn kvs) "pattern" = some v) := by
  refine ⟨rfl, ?_⟩
  intro pn kvs v hnd hl
  exact pyLookup_fold_dictSet_of_nodup kvs [("pattern", Json.str pn)] "pattern" v hnd hl

/-- C9 (witness): the override property applied to a concrete record whose
`pattern` value differs from the pattern name. -/
theorem claim_C9_witness :
    ([("pattern", Json.str "own-value"),
      ("repos", Json.arr [Json.str "core"])].map Prod.fst).Nodup ∧
    pyLookup [("pattern", Json.str "own-value"),
      ("repos", Json.arr [Json.str "core"])] "pattern" = some (Json.str "own-value") ∧
    pyLookup (mkImpact "auth-flow" [("pattern", Json.str "own-value"),
      ("repos", Json.arr [Json.str "core"])]) "pattern" = some (Json.str "own-value") := by
  refine ⟨by decide, rfl, ?_⟩
  exact claim_C9_pattern_override.2 "auth-flow" _ _ (by decide) rfl

/-- C10: a pattern record without a `repos` key is treated as having an
empty repos list — the query succeeds and never includes that record in the
result — rather than as an error. -/
theorem claim_C10_missing_repos :
    (∀ (nm pn : String) (kvs : List (String × Json)),
      pyLookup kvs "repos" = none →
      impactScan [(pn, Json.obj kvs)] nm = .ok []) ∧
    (∀ (pats : List (String × Json)) (nm : String)
       (res : List (List (String × Json))) (pn : String)
       (kvs : List (String × Json)),
      impactScan pats nm = .ok res →
      (pn, Json.obj kvs) ∈ pats →
      pyLookup kvs "repos" = none →
      mkImpact pn kvs ∉ res) := by
  constructor
  · intro nm pn kvs hl
    simp [impactScan, hl, pyIn]
  · intro pats nm res pn kvs h hmem hl hin
    have h1 := impactScan_elems_have_repos pats nm res h (mkImpact pn kvs) hin
    rw [hasKeyB_mkImpact_repos] at h1
    have h2 : hasKeyB kvs "repos" = false := pyLookup_none_any hl
    rw [h2] at h1
    exact Bool.false_ne_true h1

/-- C10 (witness): a record with no `repos` key yields a successful empty
query result. -/
theorem claim_C10_witness :
    pyLookup [("note", Json.str "x")] "repos" = none ∧
    impactScan [("auth-flow", Json.obj [("note", Json.str "x")])] "core" = .ok [] := by
  refine ⟨rfl, ?_⟩
  exact claim_C10_missing_repos.1 "core" "auth-flow" [("note", Json.str "x")] rfl
